import Mathlib

/-!
# Verification of the mention-to-reply processing pipeline

Shallow embedding of the core pipeline of the `sharedinventory` Bluesky bot:
media detection (`src/check_media.py`), thread-root computation
(`src/process.py`, `src/get_post_thread.py`), the per-mention orchestrator
(`src/process.py`), the reply length guard (`src/post_bsky_reply.py`), the
video downloader (`src/download_video.py`), video processing
(`src/process_video.py`) and prompt composition (`src/compose_ai_prompt.py`).

Python objects reached by duck-typed `hasattr`/`getattr` probing are modelled
by the inductive type `Val` below; field access that would raise
`AttributeError` in Python is modelled by an `Option`-valued lookup.  The
embedding scopes "malformed" inputs to *missing* fields (as the spec does):
a field that is present but of an unusable type (e.g. a non-iterable where a
list is extended, a non-string where `.lower()` is called) would raise a
`TypeError` in the source; the model treats such a field as absent, and no
theorem below depends on that corner.
-/

/-- A duck-typed Python value: `None`, a string, a list, or an
attribute-bearing object (a `SimpleNamespace` / atproto record, modelled as an
association list of named fields).  Numbers never flow through the probed
paths used by the claims, so they are not modelled. -/
inductive Val where
  | vnone : Val
  | vstr : String → Val
  | vlist : List Val → Val
  | vobj : List (String × Val) → Val

namespace Val

/-- `getattr(v, k)` / `v[k]` guarded by `hasattr` / `k in v`: the first field
named `k` of an object, `none` otherwise (strings, lists and `None` carry no
probed attributes). -/
def getField : Val → String → Option Val
  | vobj fields, k => (fields.find? (fun p => p.1 = k)).map Prod.snd
  | _, _ => none

/-- Python truthiness for the values that can appear at a probed path.
Objects (`SimpleNamespace` and atproto records) are always truthy. -/
def truthy : Val → Bool
  | vnone => false
  | vstr s => s != ""
  | vlist l => !l.isEmpty
  | vobj _ => true

/-- Iterating a value as a list (`list.extend(v)`); a non-list here would be a
`TypeError` in the source, see the header comment. -/
def asList : Val → List Val
  | vlist l => l
  | _ => []

/-- A field access that must produce a string to be usable. -/
def getStrField (v : Val) (k : String) : Option String :=
  match v.getField k with
  | some (vstr s) => some s
  | _ => none

end Val

/-- `deep_get` from `src/check_media.py` (string keys only): walk a path of
field names, returning the default (`none`) as soon as a key is missing. -/
def deep_get (v : Val) (path : List String) : Option Val :=
  match path with
  | [] => some v
  | k :: rest =>
    match v.getField k with
    | some v' => deep_get v' rest
    | none => none

/-- `media_info` dictionary built by `detect_post_media`
(`src/check_media.py`). URLs and raw media keep the raw probed values. -/
structure MediaInfo where
  has_media : Bool
  media_types : List String
  media_count : Nat
  media_urls : List Val
  raw_media : List Val

/-- The initial `media_info` dictionary. -/
def emptyMediaInfo : MediaInfo :=
  { has_media := false, media_types := [], media_count := 0
    media_urls := [], raw_media := [] }

/-- One media hit: sets `has_media`, bumps the count, records a type tag,
optionally a URL, and the raw media object — the update pattern repeated at
every detection site of `detect_post_media`. -/
def addHit (mi : MediaInfo) (ty : String) (url : Option Val) (raw : Val) : MediaInfo :=
  { has_media := true
    media_types := mi.media_types ++ [ty]
    media_count := mi.media_count + 1
    media_urls := mi.media_urls ++ (match url with | some u => [u] | none => [])
    raw_media := mi.raw_media ++ [raw] }

/-- Classification of one element of `media_items`
(`src/check_media.py` lines 132–160). -/
def procItem (mi : MediaInfo) (item : Val) : MediaInfo :=
  match item.getStrField "mime_type" with
  | some mt =>
    let mime := mt.toLower
    let ty := if mime.startsWith "image/" then "image"
              else if mime.startsWith "video/" then "video"
              else mime
    addHit mi ty none item
  | none =>
    match item.getField "video" with
    | some v => addHit mi "video" (v.getField "url") item
    | none =>
      match item.getField "image" with
      | some im => addHit mi "image" (im.getField "url") item
      | none =>
        if (item.getField "alt").isSome || (item.getField "aspectRatio").isSome then
          addHit mi "image" none item
        else
          addHit mi "unknown" none item

/-- `media_items` collected for one embed: `embed.media.items` when present,
else `embed.images` when present (`src/check_media.py` lines 95–102). -/
def collectItems (embed : Val) : List Val :=
  match embed.getField "media" >>= (Val.getField · "items") with
  | some its => its.asList
  | none =>
    match embed.getField "images" with
    | some imgs => imgs.asList
    | none => []

/-- The `external.thumb` probe (`src/check_media.py` lines 105–111). -/
def procThumb (mi : MediaInfo) (embed : Val) : MediaInfo :=
  match embed.getField "external" >>= (Val.getField · "thumb") with
  | some th => addHit mi "thumbnail" (th.getField "url") th
  | none => mi

/-- The nested `media.video` probe (`src/check_media.py` lines 114–120). -/
def procMediaVideo (mi : MediaInfo) (embed : Val) : MediaInfo :=
  match embed.getField "media" >>= (Val.getField · "video") with
  | some v => addHit mi "video" (v.getField "url") v
  | none => mi

/-- The direct `video` probe (`src/check_media.py` lines 123–129). -/
def procVideoDirect (mi : MediaInfo) (embed : Val) : MediaInfo :=
  match embed.getField "video" with
  | some v => addHit mi "video" (v.getField "url") v
  | none => mi

/-- Processing of one resolved, truthy embed: the `external.thumb`,
`media.video` and direct `video` probes in source order, then the
`media_items` loop (`src/check_media.py` lines 92–160). -/
def procEmbed (mi : MediaInfo) (embed : Val) : MediaInfo :=
  (collectItems embed).foldl procItem
    (procVideoDirect (procMediaVideo (procThumb mi embed) embed) embed)

/-- One iteration of the `check_paths` loop: resolve the path and process the
embed when it is present and truthy (`if not embed: continue`). -/
def procPath (post : Val) (mi : MediaInfo) (path : List String) : MediaInfo :=
  match deep_get post path with
  | some embed => if embed.truthy then procEmbed mi embed else mi
  | none => mi

/-- The final `record.blob` probe (`src/check_media.py` lines 163–167). -/
def procBlob (mi : MediaInfo) (post : Val) : MediaInfo :=
  match post.getField "record" >>= (Val.getField · "blob") with
  | some b => addHit mi "blob" none b
  | none => mi

/-- The fixed ordered list of probed embed locations
(`check_paths` in `src/check_media.py`). -/
def check_paths : List (List String) :=
  [ ["embed"], ["embedView"], ["record", "embed"], ["value", "embed"],
    ["post", "embed"], ["post", "embedView"], ["post", "record", "embed"],
    ["subject", "embed"], ["subject", "embedView"] ]

/-- `detect_post_media` (`src/check_media.py` lines 39–173): probe every
known path, process each resolved truthy embed, check `record.blob` last,
then deduplicate the media types (Python's `list(set(...))` has arbitrary
order; the model uses `List.dedup`, which only matters up to the `Nodup`
property stated about it). -/
def detect_post_media (post : Val) : MediaInfo :=
  let mi := check_paths.foldl (procPath post) emptyMediaInfo
  let mi := procBlob mi post
  { mi with media_types := mi.media_types.dedup }

/-- Does one resolved embed contain any recognizable media, i.e. would any of
the category checks of `detect_post_media` fire on it? -/
def embedHasMedia (embed : Val) : Bool :=
  (embed.getField "external" >>= (Val.getField · "thumb")).isSome
  || (embed.getField "media" >>= (Val.getField · "video")).isSome
  || (embed.getField "video").isSome
  || !(collectItems embed).isEmpty

/-- Does the probe path resolve to a truthy embed with recognizable media? -/
def pathHasMedia (post : Val) (path : List String) : Bool :=
  match deep_get post path with
  | some embed => embed.truthy && embedHasMedia embed
  | none => false

/-- Is recognizable media present at any probed path of the post (including
the final `record.blob` probe)? -/
def recognizableMedia (post : Val) : Bool :=
  check_paths.any (pathHasMedia post)
  || (post.getField "record" >>= (Val.getField · "blob")).isSome

/-- Well-formedness invariant of a `media_info` dictionary:
`has_media` tracks a positive count, the count equals the number of raw media
objects, and at most one URL per counted medium. -/
def MediaInfo.wf (mi : MediaInfo) : Prop :=
  mi.has_media = decide (0 < mi.media_count)
  ∧ mi.media_count = mi.raw_media.length
  ∧ mi.media_urls.length ≤ mi.media_count

theorem addHit_wf {mi : MediaInfo} (h : mi.wf) (ty : String) (url : Option Val)
    (raw : Val) : (addHit mi ty url raw).wf := by
  obtain ⟨_, hc, hu⟩ := h
  refine ⟨by simp [addHit], ?_, ?_⟩
  · simp [addHit, hc]
  · cases url <;> simp [addHit] <;> omega

theorem procItem_wf {mi : MediaInfo} (h : mi.wf) (item : Val) :
    (procItem mi item).wf := by
  unfold procItem
  repeat' split
  all_goals exact addHit_wf h _ _ _

theorem foldl_procItem_wf {mi : MediaInfo} (h : mi.wf) (items : List Val) :
    (items.foldl procItem mi).wf := by
  induction items generalizing mi with
  | nil => exact h
  | cons a rest ih => exact ih (procItem_wf h a)

theorem procThumb_wf {mi : MediaInfo} (h : mi.wf) (embed : Val) :
    (procThumb mi embed).wf := by
  unfold procThumb; split
  · exact addHit_wf h _ _ _
  · exact h

theorem procMediaVideo_wf {mi : MediaInfo} (h : mi.wf) (embed : Val) :
    (procMediaVideo mi embed).wf := by
  unfold procMediaVideo; split
  · exact addHit_wf h _ _ _
  · exact h

theorem procVideoDirect_wf {mi : MediaInfo} (h : mi.wf) (embed : Val) :
    (procVideoDirect mi embed).wf := by
  unfold procVideoDirect; split
  · exact addHit_wf h _ _ _
  · exact h

theorem procEmbed_wf {mi : MediaInfo} (h : mi.wf) (embed : Val) :
    (procEmbed mi embed).wf :=
  foldl_procItem_wf
    (procVideoDirect_wf (procMediaVideo_wf (procThumb_wf h embed) embed) embed) _

theorem procPath_wf {mi : MediaInfo} (h : mi.wf) (post : Val)
    (path : List String) : (procPath post mi path).wf := by
  unfold procPath
  split
  · split
    · exact procEmbed_wf h _
    · exact h
  · exact h

theorem foldl_procPath_wf {mi : MediaInfo} (h : mi.wf) (post : Val)
    (paths : List (List String)) : (paths.foldl (procPath post) mi).wf := by
  induction paths generalizing mi with
  | nil => exact h
  | cons p rest ih => exact ih (procPath_wf h post p)

theorem procBlob_wf {mi : MediaInfo} (h : mi.wf) (post : Val) :
    (procBlob mi post).wf := by
  unfold procBlob; split
  · exact addHit_wf h _ _ _
  · exact h

/-- C10 — MediaInfo internal consistency: for every input post, the
`media_info` returned by `detect_post_media` satisfies
`has_media = (media_count > 0)`, `media_count` equals the length of
`raw_media`, at most `media_count` URLs are collected, and the deduplicated
`media_types` list contains no duplicates. -/
theorem detect_post_media_consistent (post : Val) :
    ((detect_post_media post).has_media = true ↔ 0 < (detect_post_media post).media_count)
    ∧ (detect_post_media post).media_count = (detect_post_media post).raw_media.length
    ∧ (detect_post_media post).media_urls.length ≤ (detect_post_media post).media_count
    ∧ (detect_post_media post).media_types.Nodup := by
  have hbase : emptyMediaInfo.wf := ⟨rfl, rfl, le_refl _⟩
  have hw : (procBlob (check_paths.foldl (procPath post) emptyMediaInfo) post).wf :=
    procBlob_wf (foldl_procPath_wf hbase post check_paths) post
  obtain ⟨h1, h2, h3⟩ := hw
  refine ⟨?_, ?_, ?_, ?_⟩
  · simpa [detect_post_media] using ⟨fun hh => by rw [h1] at hh; simpa using hh,
      fun hh => by rw [h1]; simpa using hh⟩
  · simpa [detect_post_media] using h2
  · simpa [detect_post_media] using h3
  · simpa [detect_post_media] using List.nodup_dedup _

theorem procItem_has (mi : MediaInfo) (item : Val) :
    (procItem mi item).has_media = true := by
  unfold procItem
  repeat' split
  all_goals rfl

theorem foldl_procItem_has (mi : MediaInfo) (items : List Val) :
    (items.foldl procItem mi).has_media = (mi.has_media || !items.isEmpty) := by
  induction items generalizing mi with
  | nil => simp
  | cons a rest ih =>
    simp only [List.foldl_cons, ih, procItem_has, List.isEmpty_cons,
      Bool.true_or, Bool.not_false, Bool.or_true]

theorem procThumb_has (mi : MediaInfo) (embed : Val) :
    (procThumb mi embed).has_media
      = (mi.has_media || (embed.getField "external" >>= (Val.getField · "thumb")).isSome) := by
  unfold procThumb
  split <;> simp_all [addHit]

theorem procMediaVideo_has (mi : MediaInfo) (embed : Val) :
    (procMediaVideo mi embed).has_media
      = (mi.has_media || (embed.getField "media" >>= (Val.getField · "video")).isSome) := by
  unfold procMediaVideo
  split <;> simp_all [addHit]

theorem procVideoDirect_has (mi : MediaInfo) (embed : Val) :
    (procVideoDirect mi embed).has_media
      = (mi.has_media || (embed.getField "video").isSome) := by
  unfold procVideoDirect
  split <;> simp_all [addHit]

theorem procEmbed_has (mi : MediaInfo) (embed : Val) :
    (procEmbed mi embed).has_media = (mi.has_media || embedHasMedia embed) := by
  unfold procEmbed embedHasMedia
  rw [foldl_procItem_has, procVideoDirect_has, procMediaVideo_has, procThumb_has]
  simp [Bool.or_assoc]

theorem procPath_has (mi : MediaInfo) (post : Val) (path : List String) :
    (procPath post mi path).has_media = (mi.has_media || pathHasMedia post path) := by
  unfold procPath pathHasMedia
  split
  · split
    · simp_all [procEmbed_has]
    · simp_all
  · simp

theorem foldl_procPath_has (mi : MediaInfo) (post : Val)
    (paths : List (List String)) :
    (paths.foldl (procPath post) mi).has_media
      = (mi.has_media || paths.any (pathHasMedia post)) := by
  induction paths generalizing mi with
  | nil => simp
  | cons p rest ih =>
    simp only [List.foldl_cons, ih, procPath_has, List.any_cons, Bool.or_assoc]

theorem procBlob_has (mi : MediaInfo) (post : Val) :
    (procBlob mi post).has_media
      = (mi.has_media || (post.getField "record" >>= (Val.getField · "blob")).isSome) := by
  unfold procBlob
  split <;> simp_all [addHit]

/-- `has_media` is exactly "some probe of `detect_post_media` hit". -/
theorem detect_post_media_has (post : Val) :
    (detect_post_media post).has_media = recognizableMedia post := by
  unfold detect_post_media recognizableMedia
  simp only [procBlob_has, foldl_procPath_has]
  rfl

/-- C3 — MediaDetector robustness: `detect_post_media` is a total function on
arbitrary (also malformed or partial) post structures — every field access in
the embedding is `Option`-guarded, mirroring the source's `hasattr` guards —
and whenever no recognizable media is present at any probed path the returned
MediaInfo has `has_media = false`. -/
theorem detect_post_media_robust (post : Val)
    (h : recognizableMedia post = false) :
    (detect_post_media post).has_media = false := by
  rw [detect_post_media_has, h]

/-- Witness for C3: a malformed partial post (an `embed` object with an
unrelated field, a `record` with no `blob`, a stray string field) evaluates to
`has_media = false` without any failure. -/
theorem detect_post_media_robust_witness :
    recognizableMedia (Val.vobj
      [("embed", Val.vobj [("foo", Val.vstr "bar")]),
       ("record", Val.vobj [("text", Val.vstr "hello")]),
       ("uri", Val.vstr "at://x")]) = false
    ∧ (detect_post_media (Val.vobj
      [("embed", Val.vobj [("foo", Val.vstr "bar")]),
       ("record", Val.vobj [("text", Val.vstr "hello")]),
       ("uri", Val.vstr "at://x")])).has_media = false :=
  ⟨by rfl, detect_post_media_robust _ (by rfl)⟩

/-! ## Thread structure and root computation
(`src/get_post_thread.py`, `src/process.py`) -/

/-- The fields of an API post view used by root computation.
`process_post_info` also extracts author, text, timestamps and engagement
counts; those never flow into `get_root_post_uri` or the dedup logic and are
omitted from the embedding. `uri` is `None` when the view lacks the
attribute. -/
structure PostView where
  uri : Option String

/-- The post-info dictionary built by `process_post_info`
(`src/get_post_thread.py` lines 288–333), restricted to the `uri` key. -/
structure Post where
  uri : Option String

/-- `process_post_info`: extract key information from a post view. -/
def process_post_info (pv : PostView) : Post :=
  { uri := pv.uri }

/-- One node of the API thread response: an optional `post` attribute, an
optional (and truthy — atproto objects are always truthy) `parent` attribute,
and a list of `replies`. -/
inductive ThreadNode where
  | mk : Option PostView → Option ThreadNode → List ThreadNode → ThreadNode

def ThreadNode.post : ThreadNode → Option PostView
  | .mk p _ _ => p

def ThreadNode.parent : ThreadNode → Option ThreadNode
  | .mk _ p _ => p

def ThreadNode.replies : ThreadNode → List ThreadNode
  | .mk _ _ r => r

/-- The parent-collection `while` loop of `extract_thread_structure`
(`src/get_post_thread.py` lines 359–369): walk `current.parent` upward,
collecting each parent that has a `post` attribute, nearest parent first,
and stop (`break`) at the first parent without one. -/
def walkParents : ThreadNode → List Post
  | .mk _ none _ => []
  | .mk _ (some p) _ =>
    match p.post with
    | some pv => process_post_info pv :: walkParents p
    | none => []

/-- The thread-structure dictionary of `extract_thread_structure`. -/
structure ThreadStructure where
  main_post : Option Post
  parent_posts : List Post
  reply_posts : List Post
  thread_depth : Nat
  has_parent : Bool
  all_post_uris : List String

/-- `extract_thread_structure` (`src/get_post_thread.py` lines 335–390):
`none` covers both a missing response and a response without a `thread`
attribute. The parents are collected nearest-first by the `while` loop and
then reversed into chronological (oldest → newest) order; `all_post_uris`
keeps the un-reversed collection order, as in the source. -/
def extract_thread_structure (resp : Option ThreadNode) : ThreadStructure :=
  match resp with
  | none =>
    { main_post := none, parent_posts := [], reply_posts := []
      thread_depth := 0, has_parent := false, all_post_uris := [] }
  | some main_thread =>
    let main_post := main_thread.post.map process_post_info
    let parentsWalk := walkParents main_thread
    let reply_posts :=
      main_thread.replies.filterMap (fun r => r.post.map process_post_info)
    { main_post := main_post
      parent_posts := parentsWalk.reverse
      reply_posts := reply_posts
      thread_depth := parentsWalk.length + 1 + reply_posts.length
      has_parent := !parentsWalk.isEmpty
      all_post_uris :=
        (main_post.bind Post.uri).toList
          ++ parentsWalk.filterMap Post.uri
          ++ reply_posts.filterMap Post.uri }

/-- `get_root_post_uri` (`src/process.py` lines 45–49):
`parent_posts[0]['uri']` when a parent exists, else `main_post['uri']`.
The result is `none` when the selected post carries no URI. -/
def get_root_post_uri (ts : ThreadStructure) : Option String :=
  match ts.parent_posts with
  | p :: _ => p.uri
  | [] => ts.main_post.bind Post.uri

/-- `get_root_post_uri` including its failure mode: when there is no parent
and `main_post` is `None`, the Python subscript `None['uri']` raises a
`TypeError` (caught by the caller's handler); this is the outer `none`. -/
def get_root_post_uri_checked (ts : ThreadStructure) : Option (Option String) :=
  match ts.parent_posts with
  | p :: _ => some p.uri
  | [] => ts.main_post.map Post.uri

/-- C2 — Root URI computation: `parent_posts` is the reversal of the
nearest-first parent walk, hence ordered oldest → newest; its first entry is
the oldest collected ancestor (the last of the upward walk); and the root URI
used for dedup is that oldest ancestor's URI when any parent exists, else the
main post's URI. -/
theorem get_root_post_uri_oldest (t : ThreadNode) :
    (extract_thread_structure (some t)).parent_posts = (walkParents t).reverse
    ∧ (extract_thread_structure (some t)).parent_posts.head? = (walkParents t).getLast?
    ∧ get_root_post_uri (extract_thread_structure (some t)) =
        (match (walkParents t).getLast? with
         | some p => p.uri
         | none => (t.post.map process_post_info).bind Post.uri) := by
  refine ⟨rfl, ?_, ?_⟩
  · show (walkParents t).reverse.head? = (walkParents t).getLast?
    exact List.head?_reverse _
  · show (match (walkParents t).reverse with
      | p :: _ => p.uri
      | [] => (t.post.map process_post_info).bind Post.uri) = _
    have h := List.head?_reverse (walkParents t)
    cases hrev : (walkParents t).reverse with
    | nil =>
      rw [hrev] at h
      simp only [List.head?_nil] at h
      rw [← h]
    | cons a rest =>
      rw [hrev] at h
      simp only [List.head?_cons] at h
      rw [← h]

/-! ## Prompt message shape (`src/compose_ai_prompt.py`) -/

/-- One item of a multi-part user message: a text part or an inline
base64 data-URL image part. -/
inductive ContentItem where
  | ctext : String → ContentItem
  | image_url : String → ContentItem
  deriving DecidableEq, Repr

/-- Message content: a plain string or an ordered list of parts. -/
inductive MsgContent where
  | text : String → MsgContent
  | parts : List ContentItem → MsgContent
  deriving DecidableEq, Repr

/-- One chat message as assembled by `AIPromptComposer`. -/
structure Message where
  role : String
  content : MsgContent
  deriving DecidableEq, Repr

/-! ## Per-mention orchestrator (`src/process.py`) -/

/-- The slice of a successful `check_media` result the orchestrator reads:
`post_info.video_url` and `post_info.text` (each may be missing). -/
structure MediaCheck where
  video_url : Option String
  text : Option String

/-- The AI response dictionary as read by the orchestrator: an `error` key
means failure; the reply text is `response`, falling back to
`friendly_response`, falling back to the empty string. -/
structure AIResponse where
  error : Option String
  response : Option String
  friendly_response : Option String

/-- The slice of the `process_video` result the orchestrator reads. -/
structure VideoData where
  transcript_path : Option String

/-- `ai_response.get('response', ai_response.get('friendly_response', ''))`. -/
def friendlyResponse (r : AIResponse) : String :=
  match r.response with
  | some s => s
  | none =>
    match r.friendly_response with
    | some s => s
    | none => ""

/-- The observable actions of one pipeline run, in execution order.  A
`replyPost` records the collaborator's success flag. -/
inductive Effect where
  | getThread : String → Effect
  | mediaCheck : Option String → Effect
  | download : String → Effect
  | analyze : String → Effect
  | composeCall : Effect
  | modelCall : Effect
  | replyPost : String → String → Bool → Effect
  | markProcessed : String → Effect
  deriving DecidableEq, Repr

/-- The external collaborators of `process_single_mention`, each behind the
narrow interface the orchestrator consumes. `none` models a falsy / failed
result (or, for `processVideo`, a raised exception). -/
structure PipeEnv where
  getThread : String → Option ThreadStructure
  checkMedia : Option String → Option MediaCheck
  download : String → Option String
  processVideo : String → Option VideoData
  compose : Option String → String → Option String → Option (List Message)
  callAI : List Message → Option AIResponse
  postReply : String → String → Bool

/-- `is_thread_processed` (`src/process.py` lines 51–58): membership of the
root URI in the processed-threads file lines (a `None` root is never a
member of a list of strings). -/
def is_thread_processed (rootOpt : Option String) (processed : List String) : Bool :=
  match rootOpt with
  | some r => processed.contains r
  | none => false

/-- The string appended by `mark_thread_processed`
(`src/process.py` lines 60–66); a `None` root is formatted as `"None"` by the
f-string. -/
def rootString (rootOpt : Option String) : String :=
  match rootOpt with
  | some r => r
  | none => "None"

/-- `BotProcessor.process_single_mention` (`src/process.py` lines 132–223):
returns the success flag, the ordered list of observable effects, and the
updated processed-threads list.  Every failure path returns `False` via the
surrounding `try/except`; `mark_thread_processed` runs only after a
successful reply. -/
def process_single_mention (env : PipeEnv) (processed : List String)
    (uri : String) : Bool × List Effect × List String :=
  match env.getThread uri with
  | none => (false, [.getThread uri], processed)
  | some ts =>
    match get_root_post_uri_checked ts with
    | none => (false, [.getThread uri], processed)
    | some rootOpt =>
      if is_thread_processed rootOpt processed then
        (true, [.getThread uri], processed)
      else
        match env.checkMedia rootOpt with
        | none => (false, [.getThread uri, .mediaCheck rootOpt], processed)
        | some mc =>
          match mc.video_url with
          | none => (true, [.getThread uri, .mediaCheck rootOpt], processed)
          | some vurl =>
            if vurl = "" then
              (true, [.getThread uri, .mediaCheck rootOpt], processed)
            else
              match env.download vurl with
              | none =>
                (false, [.getThread uri, .mediaCheck rootOpt, .download vurl],
                  processed)
              | some vpath =>
                match env.processVideo vpath with
                | none =>
                  (false, [.getThread uri, .mediaCheck rootOpt, .download vurl,
                    .analyze vpath], processed)
                | some vd =>
                  match env.compose vd.transcript_path "src/system_message.md"
                      mc.text with
                  | none =>
                    (false, [.getThread uri, .mediaCheck rootOpt,
                      .download vurl, .analyze vpath, .composeCall], processed)
                  | some msgs =>
                    if msgs.isEmpty then
                      (false, [.getThread uri, .mediaCheck rootOpt,
                        .download vurl, .analyze vpath, .composeCall],
                        processed)
                    else
                      match env.callAI msgs with
                      | none =>
                        (false, [.getThread uri, .mediaCheck rootOpt,
                          .download vurl, .analyze vpath, .composeCall,
                          .modelCall], processed)
                      | some resp =>
                        if resp.error.isSome then
                          (false, [.getThread uri, .mediaCheck rootOpt,
                            .download vurl, .analyze vpath, .composeCall,
                            .modelCall], processed)
                        else
                          let fr := friendlyResponse resp
                          if fr = "" then
                            (false, [.getThread uri, .mediaCheck rootOpt,
                              .download vurl, .analyze vpath, .composeCall,
                              .modelCall], processed)
                          else
                            if env.postReply uri fr then
                              (true, [.getThread uri, .mediaCheck rootOpt,
                                .download vurl, .analyze vpath, .composeCall,
                                .modelCall, .replyPost uri fr true,
                                .markProcessed (rootString rootOpt)],
                                processed ++ [rootString rootOpt])
                            else
                              (false, [.getThread uri, .mediaCheck rootOpt,
                                .download vurl, .analyze vpath, .composeCall,
                                .modelCall, .replyPost uri fr false],
                                processed)

/-- Is the effect one of the expensive stages the dedup check must prevent? -/
def Effect.isExpensive : Effect → Bool
  | .mediaCheck _ => true
  | .download _ => true
  | .analyze _ => true
  | .modelCall => true
  | .replyPost _ _ _ => true
  | _ => false

/-- A successfully posted reply. -/
def Effect.isPostedReply : Effect → Bool
  | .replyPost _ _ ok => ok
  | _ => false

/-- Number of replies actually posted in an effect trace. -/
def repliesPosted (es : List Effect) : Nat :=
  es.countP Effect.isPostedReply

theorem run_dedup (env : PipeEnv) (processed : List String) (uri : String)
    (ts : ThreadStructure) (rootOpt : Option String)
    (h1 : env.getThread uri = some ts)
    (hr : get_root_post_uri_checked ts = some rootOpt)
    (hmem : is_thread_processed rootOpt processed = true) :
    process_single_mention env processed uri
      = (true, [.getThread uri], processed) := by
  simp [process_single_mention, h1, hr, hmem]

theorem run_fresh (env : PipeEnv) (processed : List String) (uri : String)
    (ts : ThreadStructure) (rootOpt : Option String)
    (h1 : env.getThread uri = some ts)
    (hr : get_root_post_uri_checked ts = some rootOpt)
    (hmem : is_thread_processed rootOpt processed = false) :
    ((process_single_mention env processed uri).2.2 = processed
      ∧ repliesPosted (process_single_mention env processed uri).2.1 = 0)
    ∨ ((process_single_mention env processed uri).2.2
          = processed ++ [rootString rootOpt]
      ∧ repliesPosted (process_single_mention env processed uri).2.1 = 1) := by
  simp only [process_single_mention, h1, hr, hmem]
  repeat' split
  all_goals
    simp [repliesPosted, Effect.isPostedReply, List.countP_cons, List.countP_nil]

/-- Two sequential pipeline runs: the combined effect trace and the final
processed list. -/
def runTwo (env : PipeEnv) (processed : List String) (m1 m2 : String) :
    List Effect × List String :=
  let r1 := process_single_mention env processed m1
  let r2 := process_single_mention env r1.2.2 m2
  (r1.2.1 ++ r2.2.1, r2.2.2)


theorem runTwo_def (env : PipeEnv) (processed : List String) (m1 m2 : String) :
    runTwo env processed m1 m2
      = ((process_single_mention env processed m1).2.1
          ++ (process_single_mention env
                (process_single_mention env processed m1).2.2 m2).2.1,
         (process_single_mention env
            (process_single_mention env processed m1).2.2 m2).2.2) := rfl

theorem runTwo_cases (env : PipeEnv) (processed : List String)
    (m1 m2 R : String) (t1 t2 : ThreadStructure)
    (h1 : env.getThread m1 = some t1) (h2 : env.getThread m2 = some t2)
    (hr1 : get_root_post_uri_checked t1 = some (some R))
    (hr2 : get_root_post_uri_checked t2 = some (some R))
    (hmem : processed.contains R = false) :
    ((runTwo env processed m1 m2).2 = processed
      ∧ repliesPosted (runTwo env processed m1 m2).1 = 0)
    ∨ ((runTwo env processed m1 m2).2 = processed ++ [R]
      ∧ repliesPosted (runTwo env processed m1 m2).1 = 1) := by
  have hmem' : is_thread_processed (some R) processed = false := hmem
  rw [runTwo_def]
  dsimp only
  rcases run_fresh env processed m1 t1 (some R) h1 hr1 hmem' with
    ⟨hp1, he1⟩ | ⟨hp1, he1⟩
  · rcases run_fresh env (process_single_mention env processed m1).2.2 m2 t2
      (some R) h2 hr2 (by rw [hp1]; exact hmem') with ⟨hp2, he2⟩ | ⟨hp2, he2⟩
    · left
      refine ⟨by rw [hp2, hp1], ?_⟩
      unfold repliesPosted at *
      rw [List.countP_append, he1, he2]
    · right
      refine ⟨by rw [hp2, hp1]; rfl, ?_⟩
      unfold repliesPosted at *
      rw [List.countP_append, he1, he2]
  · have hp1' : (process_single_mention env processed m1).2.2
        = processed ++ [R] := hp1
    have hmem2 : is_thread_processed (some R)
        (process_single_mention env processed m1).2.2 = true := by
      rw [hp1']
      show (processed ++ [R]).contains R = true
      simp
    have hd2 := run_dedup env (process_single_mention env processed m1).2.2
      m2 t2 (some R) h2 hr2 hmem2
    right
    rw [hd2]
    refine ⟨hp1', ?_⟩
    unfold repliesPosted at *
    rw [List.countP_append, he1]
    rfl

/-- C1 (amended) — Thread-root dedup / idempotence: if the thread of a
mention resolves to a root `R` already in the processed set, the run performs
no media check, download, analysis, model call or reply posting, reports
success and leaves the set unchanged; and two sequential runs on mentions
sharing a fresh root `R` post at most one reply and append `R` at most once —
exactly once precisely when one of the runs posts a reply successfully
(appending happens only after a successful reply), and never otherwise. -/
theorem pipeline_root_dedup_idempotent (env : PipeEnv) (processed : List String)
    (m1 m2 R : String) (t1 t2 : ThreadStructure)
    (h1 : env.getThread m1 = some t1) (h2 : env.getThread m2 = some t2)
    (hr1 : get_root_post_uri_checked t1 = some (some R))
    (hr2 : get_root_post_uri_checked t2 = some (some R)) :
    (processed.contains R = true →
      process_single_mention env processed m1
          = (true, [.getThread m1], processed)
        ∧ ∀ e ∈ (process_single_mention env processed m1).2.1,
            e.isExpensive = false)
    ∧ (processed.contains R = false →
        repliesPosted (runTwo env processed m1 m2).1 ≤ 1
        ∧ (runTwo env processed m1 m2).2.count R ≤ 1
        ∧ (repliesPosted (runTwo env processed m1 m2).1 = 1
            ↔ (runTwo env processed m1 m2).2 = processed ++ [R])
        ∧ (repliesPosted (runTwo env processed m1 m2).1 = 0
            ↔ (runTwo env processed m1 m2).2 = processed)) := by
  constructor
  · intro hmem
    have hd := run_dedup env processed m1 t1 (some R) h1 hr1 hmem
    refine ⟨hd, ?_⟩
    rw [hd]
    intro e he
    simp only [List.mem_singleton] at he
    subst he
    rfl
  · intro hmem
    have hcount0 : processed.count R = 0 :=
      List.count_eq_zero_of_not_mem (by simpa using hmem)
    rcases runTwo_cases env processed m1 m2 R t1 t2 h1 h2 hr1 hr2 hmem with
      ⟨hp, he⟩ | ⟨hp, he⟩
    · refine ⟨by omega, by rw [hp]; omega, ?_, ?_⟩
      · rw [he, hp]
        constructor
        · intro hc; omega
        · intro hc
          exact absurd hc (by simp)
      · rw [he, hp]
        simp
    · refine ⟨by omega, by rw [hp]; simp [hcount0], ?_, ?_⟩
      · rw [he, hp]
        simp
      · rw [he, hp]
        constructor
        · intro hc; omega
        · intro hc
          exact absurd hc.symm (by simp)

/-- A concrete resolved thread: a root-level main post, no parents. -/
def c1Thread : ThreadStructure :=
  { main_post := some ⟨some "at://root"⟩, parent_posts := [], reply_posts := []
    thread_depth := 1, has_parent := false, all_post_uris := ["at://root"] }

/-- A concrete environment in which every collaborator succeeds. -/
def c1EnvOk : PipeEnv :=
  { getThread := fun _ => some c1Thread
    checkMedia := fun _ => some ⟨some "https://cdn/video.mp4", some "post text"⟩
    download := fun _ => some "data/videos/v.mp4"
    processVideo := fun _ =>
      some ⟨some "data/processed_videos/transcripts/v_transcript.json"⟩
    compose := fun _ _ _ => some [⟨"system", .text "sys"⟩]
    callAI := fun _ => some ⟨none, some "take a look!", none⟩
    postReply := fun _ _ => true }

/-- The same environment with a failing media check. -/
def c1EnvFail : PipeEnv :=
  { c1EnvOk with checkMedia := fun _ => none }

/-- Witness for C1 (amended): in the all-success environment, two runs on
mentions sharing the fresh root post exactly one reply and append the root
exactly once. -/
theorem pipeline_root_dedup_idempotent_witness :
    repliesPosted (runTwo c1EnvOk [] "m1" "m2").1 = 1
    ∧ (runTwo c1EnvOk [] "m1" "m2").2 = ["at://root"] := by
  have h := (pipeline_root_dedup_idempotent c1EnvOk [] "m1" "m2" "at://root"
    c1Thread c1Thread rfl rfl rfl rfl).2 rfl
  refine ⟨by decide, ?_⟩
  have hp := h.2.2.1.mp (by decide)
  simpa using hp

/-- Counterexample to C1 as stated: the claim's "R appended to the
ProcessedSet exactly once" fails when the pipeline does not reach a
successful reply — here the media check fails on both runs, so zero replies
are posted and the root is appended zero times, not once. -/
theorem pipeline_exactly_once_fails :
    repliesPosted (runTwo c1EnvFail [] "m1" "m2").1 = 0
    ∧ (runTwo c1EnvFail [] "m1" "m2").2.count "at://root" = 0
    ∧ ¬ (runTwo c1EnvFail [] "m1" "m2").2.count "at://root" = 1 := by
  exact ⟨by decide, by decide, by decide⟩

/-! ## Reply posting and the length guard (`src/post_bsky_reply.py`) -/

/-- `sanitize_text`: the UTF-16 surrogatepass round-trip is the identity on
well-formed Unicode text, which is the only kind a Lean `String` holds. -/
def sanitize_text (t : String) : String := t

/-- Python's `str.split(sep)` for a one-character separator, on the
character list of a string (structurally recursive so that concrete inputs
evaluate): splitting the empty list yields one empty field, and each
separator delimits a possibly empty field — the semantics of
`_parse_at_uri` in `src/post_bsky_reply.py` lines 148–168. -/
def splitChar (sep : Char) : List Char → List (List Char)
  | [] => [[]]
  | c :: cs =>
    match splitChar sep cs with
    | [] => [[]]
    | h :: t => if c = sep then [] :: h :: t else (c :: h) :: t

/-- `BlueskyReplier._parse_at_uri` continued: strip the `at://` prefix and
split into exactly three `/`-separated parts. -/
def parse_at_uri (uri : String) : Option (String × String × String) :=
  if "at://".data.isPrefixOf uri.data then
    match splitChar '/' (uri.data.drop 5) with
    | [repo, coll, rkey] => some (⟨repo⟩, ⟨coll⟩, ⟨rkey⟩)
    | _ => none
  else none

/-- Outcome of one iteration of the retry loop: the parent-thread fetch
raises, the record create raises, or the reply is created. -/
inductive AttemptResult where
  | fetchFail : AttemptResult
  | createFail : AttemptResult
  | ok : AttemptResult

/-- Observable network interactions of `post_reply`. -/
inductive ReplyEffect where
  | fetchThread : String → ReplyEffect
  | createPost : String → ReplyEffect
  deriving DecidableEq, Repr

/-- The retry loop of `post_reply` (`src/post_bsky_reply.py` lines 103–139):
up to `n` attempts starting at index `i`, each fetching the parent thread
and, if that succeeds, creating the reply record with the sanitized text;
the first successful create returns `True`. -/
def doAttempts (att : Nat → AttemptResult) (uri text : String) :
    Nat → Nat → Bool × List ReplyEffect
  | _, 0 => (false, [])
  | i, n + 1 =>
    match att i with
    | .fetchFail =>
      let r := doAttempts att uri text (i + 1) n
      (r.1, .fetchThread uri :: r.2)
    | .createFail =>
      let r := doAttempts att uri text (i + 1) n
      (r.1, .fetchThread uri :: .createPost text :: r.2)
    | .ok => (true, [.fetchThread uri, .createPost text])

/-- `BlueskyReplier.post_reply` (`src/post_bsky_reply.py` lines 73–146):
authentication check, the 300-character guard, URI parsing and the `all`
check, then the retry loop with `max_retries = 3`.  Returns the success flag
and the ordered network interactions. -/
def post_reply (authenticated : Bool) (att : Nat → AttemptResult)
    (parent_uri reply_text : String) : Bool × List ReplyEffect :=
  if !authenticated then (false, [])
  else if reply_text.length > 300 then (false, [])
  else
    match parse_at_uri parent_uri with
    | none => (false, [])
    | some (repo, coll, rkey) =>
      if repo = "" || coll = "" || rkey = "" then (false, [])
      else doAttempts att parent_uri (sanitize_text reply_text) 0 3

theorem doAttempts_ne_nil (att : Nat → AttemptResult) (uri text : String)
    (i n : Nat) (h : n ≠ 0) : (doAttempts att uri text i n).2 ≠ [] := by
  cases n with
  | zero => exact absurd rfl h
  | succ m =>
    unfold doAttempts
    cases att i <;> simp

/-- C4 — Reply length guard: a reply text longer than 300 characters makes
`post_reply` fail without any network interaction (in particular no
post-creation call, so no silently truncated text is ever posted); a text of
at most 300 characters is not rejected by the guard — with authentication
and a well-formed parent URI, execution proceeds into the retry loop and the
only text ever passed to the create call is the unmodified (sanitized-as-
identity) reply text. -/
theorem post_reply_length_guard (authenticated : Bool)
    (att : Nat → AttemptResult) (parent_uri reply_text : String) :
    (reply_text.length > 300 →
      post_reply authenticated att parent_uri reply_text = (false, []))
    ∧ (authenticated = true → reply_text.length ≤ 300 →
        ∀ repo coll rkey, parse_at_uri parent_uri = some (repo, coll, rkey) →
        repo ≠ "" → coll ≠ "" → rkey ≠ "" →
        (post_reply authenticated att parent_uri reply_text).2 ≠ []
        ∧ ∀ e ∈ (post_reply authenticated att parent_uri reply_text).2,
            ∀ s, e = .createPost s → s = reply_text) := by
  constructor
  · intro h
    unfold post_reply
    cases authenticated with
    | false => rfl
    | true => simp [h]
  · intro hauth hlen repo coll rkey hparse hrepo hcoll hrkey
    subst hauth
    have hguard : ¬ reply_text.length > 300 := by omega
    constructor
    · simp only [post_reply, Bool.not_true, Bool.false_eq_true, if_false,
        hguard, hparse, hrepo, hcoll, hrkey]
      simp [hrepo, hcoll, hrkey]
      exact doAttempts_ne_nil att parent_uri (sanitize_text reply_text) 0 3
        (by omega)
    · intro e he s hes
      simp only [post_reply, Bool.not_true, Bool.false_eq_true, if_false,
        if_neg hguard, hparse] at he
      simp only [hrepo, hcoll, hrkey] at he
      simp at he
      subst hes
      -- every createPost in the loop carries the sanitized text
      have : ∀ i n, ReplyEffect.createPost s ∈
          (doAttempts att parent_uri (sanitize_text reply_text) i n).2 →
          s = reply_text := by
        intro i n
        induction n generalizing i with
        | zero => intro hmem; simp [doAttempts] at hmem
        | succ m ih =>
          intro hmem
          unfold doAttempts at hmem
          cases hatt : att i <;> simp [hatt] at hmem
          · exact ih (i + 1) hmem
          · rcases hmem with hmem | hmem
            · exact hmem
            · exact ih (i + 1) hmem
          · exact hmem
      exact this 0 3 he

/-- Witness for C4: a 301-character reply is rejected with no network
interaction; a 2-character reply passes the guard and reaches the create
call. -/
theorem post_reply_length_guard_witness :
    (String.mk (List.replicate 301 'a')).length > 300
    ∧ post_reply true (fun _ => .ok) "at://did:plc:x/app.bsky.feed.post/3k"
        (String.mk (List.replicate 301 'a')) = (false, [])
    ∧ (post_reply true (fun _ => .ok)
        "at://did:plc:x/app.bsky.feed.post/3k" "ok").2 ≠ [] := by
  have hlen : (String.mk (List.replicate 301 'a')).length > 300 := by
    show 300 < (List.replicate 301 'a').length
    rw [List.length_replicate]
    omega
  refine ⟨hlen, ?_, ?_⟩
  · exact (post_reply_length_guard true (fun _ => .ok)
      "at://did:plc:x/app.bsky.feed.post/3k"
      (String.mk (List.replicate 301 'a'))).1 hlen
  · exact ((post_reply_length_guard true (fun _ => .ok)
      "at://did:plc:x/app.bsky.feed.post/3k" "ok").2 rfl (by decide)
      "did:plc:x" "app.bsky.feed.post" "3k" (by decide)
      (by decide) (by decide) (by decide)).1

/-! ## Video downloader (`src/download_video.py`) -/

/-- A key of the downloader's `deep_get` path: an attribute name or a list
index (`src/download_video.py` lines 100–112). -/
inductive PathKey where
  | field : String → PathKey
  | idx : Nat → PathKey

/-- `BlueskyVideoDownloader.deep_get`: like `deep_get` but also stepping into
lists by (non-negative) index when the index is in range. -/
def deep_get_dl (v : Val) : List PathKey → Option Val
  | [] => some v
  | .field k :: rest =>
    match v.getField k with
    | some v' => deep_get_dl v' rest
    | none => none
  | .idx n :: rest =>
    match v with
    | .vlist l =>
      match l.get? n with
      | some v' => deep_get_dl v' rest
      | none => none
    | _ => none

/-- The probed locations of a direct video URL
(`check_paths` in `extract_video_url`, `src/download_video.py` lines 147–153). -/
def direct_url_paths : List (List PathKey) :=
  [ [.field "embed", .field "media", .field "video", .field "url"],
    [.field "embed", .field "media", .field "items", .idx 0, .field "video", .field "url"],
    [.field "embedView", .field "video", .field "url"],
    [.field "record", .field "embed", .field "media", .field "video", .field "url"],
    [.field "record", .field "embed", .field "media", .field "items", .idx 0,
      .field "video", .field "url"] ]

/-- The direct-URL search loop: the first probed path resolving to a truthy
string wins (`if url and isinstance(url, str): ... break`). -/
def find_direct_url (post : Val) : Option String :=
  direct_url_paths.findSome? fun p =>
    match deep_get_dl post p with
    | some (.vstr s) => if s ≠ "" then some s else none
    | _ => none

/-- `BlueskyVideoDownloader.extract_video_url`
(`src/download_video.py` lines 114–171): the playlist URL is
`post.embed.playlist` when present; a present but non-string playlist value
makes `playlist_url.split` raise, and the surrounding handler returns
`(None, None)`.  The "potential direct MP4 URL" computed from the playlist is
dead code in the source: it is logged and discarded, never used. -/
def extract_video_url (post : Val) : Option String × Option String :=
  match post.getField "embed" >>= (Val.getField · "playlist") with
  | some (.vstr s) => (find_direct_url post, some s)
  | some _ => (none, none)
  | none => (find_direct_url post, none)

/-- The URL selection of `download_post_video`
(`src/download_video.py` lines 269–284): prefer the direct URL, else the
playlist URL; a missing or falsy selection aborts with failure — there is no
further fallback of any kind. -/
def download_post_video_choice (post : Val) : Option String :=
  let dp := extract_video_url post
  let chosen : Option String :=
    match dp.1 with
    | some s => some s
    | none => dp.2
  match chosen with
  | some s => if s ≠ "" then some s else none
  | none => none

/-- C8 (amended) — Video URL precedence: when a direct URL is resolvable it
is used regardless of the playlist; when only the playlist URL is resolvable
(and truthy) it is used; and when neither is resolvable the downloader uses
no URL at all and fails — it does not fall back to any heuristic CDN
reconstruction (none exists in the code). -/
theorem download_url_precedence (post : Val) :
    (∀ d p, extract_video_url post = (some d, some p) →
      download_post_video_choice post = if d ≠ "" then some d else none)
    ∧ (∀ p, extract_video_url post = (none, some p) →
      download_post_video_choice post = if p ≠ "" then some p else none)
    ∧ (extract_video_url post = (none, none) →
      download_post_video_choice post = none) := by
  refine ⟨?_, ?_, ?_⟩
  · intro d p h
    simp [download_post_video_choice, h]
  · intro p h
    simp [download_post_video_choice, h]
  · intro h
    simp [download_post_video_choice, h]

/-- A concrete post carrying only a content-addressed video reference
(a blob CID), with no direct URL and no playlist. -/
def blobOnlyPost : Val :=
  .vobj
    [("embed", .vobj
      [("video", .vobj
        [("ref", .vobj [("link", .vstr "bafkreibac4x7g4dkdlxt6dopyau6ot2qwvkhyyyzcmpimbi5cbdbi6mrxq")]),
         ("mimeType", .vstr "video/mp4")])]),
     ("uri", .vstr "at://did:plc:x/app.bsky.feed.post/3k")]

/-- Counterexample to C8 as stated: on a post where neither a direct nor a
playlist URL is resolvable but a content-addressed reference is present, the
downloader selects no URL at all (failure) — it does not reconstruct a CDN
URL from the reference. -/
theorem download_no_heuristic_fallback :
    extract_video_url blobOnlyPost = (none, none)
    ∧ download_post_video_choice blobOnlyPost = none := by
  exact ⟨rfl, rfl⟩

/-- Witness for C8 (amended): direct wins over playlist, the playlist is used
when no direct URL resolves, and a post without either yields no URL. -/
theorem download_url_precedence_witness :
    download_post_video_choice (.vobj
      [("embed", .vobj
        [("playlist", .vstr "https://cdn/playlist.m3u8"),
         ("media", .vobj [("video", .vobj [("url", .vstr "https://cdn/v.mp4")])])])])
      = some "https://cdn/v.mp4"
    ∧ download_post_video_choice (.vobj
        [("embed", .vobj [("playlist", .vstr "https://cdn/playlist.m3u8")])])
      = some "https://cdn/playlist.m3u8"
    ∧ download_post_video_choice (.vobj [("text", .vstr "no media")]) = none := by
  refine ⟨?_, ?_, ?_⟩
  · exact (download_url_precedence _).1 "https://cdn/v.mp4"
      "https://cdn/playlist.m3u8" rfl
  · exact (download_url_precedence _).2.1 "https://cdn/playlist.m3u8" rfl
  · exact (download_url_precedence _).2.2 rfl

/-- Python `str.replace(old, new)`: left-to-right, non-overlapping, all
occurrences; structural (fuel = input length) so concrete inputs evaluate. -/
def replaceAllAux (pat repl : List Char) : Nat → List Char → List Char
  | 0, l => l
  | _ + 1, [] => []
  | fuel + 1, c :: cs =>
    if pat.isPrefixOf (c :: cs) && !pat.isEmpty then
      repl ++ replaceAllAux pat repl fuel ((c :: cs).drop pat.length)
    else
      c :: replaceAllAux pat repl fuel cs

def replaceAll (pat repl l : List Char) : List Char :=
  replaceAllAux pat repl l.length l

/-- Does the URL end in the HLS playlist suffix (`url.endswith('.m3u8')`)? -/
def isHlsUrl (url : String) : Bool :=
  ".m3u8".data.isSuffixOf url.data

/-- The output filename derivation of `download_video`
(`src/download_video.py` lines 229–242): last URL path segment, query string
stripped, a uniqueness timestamp prefix, and `.m3u8` renamed to an `.mp4`
name. -/
def downloadFilename (url timestamp : String) : String :=
  let filename := ((splitChar '/' url.data).getLastD [])
  let filename :=
    if filename.contains '?' then (splitChar '?' filename).headD []
    else filename
  if ".m3u8".data.isSuffixOf filename then
    let base := replaceAll "playlist.m3u8".data [] filename
    timestamp ++ "_" ++ ⟨base⟩ ++ "video.mp4"
  else
    timestamp ++ "_" ++ ⟨filename⟩

/-- On-disk state: contents by path. -/
def FileSys : Type := String → Option String

/-- Writing one file. -/
def FileSys.write (fs : FileSys) (p c : String) : FileSys :=
  fun q => if q = p then some c else fs q

/-- Outcome of `requests.get(url, stream=True)` followed by
`raise_for_status()`: `fail` is a network error at request time or a non-2xx
status (both raise before the output file is opened); `stream chunks c`
yields `chunks` into the open file, `c = false` modelling an exception
raised by the chunk iterator after those chunks were written. -/
inductive HttpResult where
  | fail : HttpResult
  | stream : List String → Bool → HttpResult

/-- External collaborators of the downloader: the HTTP layer and the ffmpeg
remux tool.  `ffmpeg url out` returns the tool's exit status and what the
tool left at `out` (the tool owns that path; on a non-zero exit it may have
left a partial file). -/
structure DlEnv where
  http : String → HttpResult
  ffmpeg : String → String → Bool × Option String

/-- `download_from_playlist` (`src/download_video.py` lines 173–221): run the
remux tool; a `CalledProcessError` (non-zero exit) is caught and mapped to
`False`.  The code performs no cleanup of whatever the tool wrote. -/
def download_from_playlist (env : DlEnv) (fs : FileSys)
    (playlist_url output_path : String) : Bool × FileSys :=
  let r := env.ffmpeg playlist_url output_path
  let fs' := match r.2 with
    | some c => fs.write output_path c
    | none => fs
  (r.1, fs')

/-- `BlueskyVideoDownloader.download_video`
(`src/download_video.py` lines 223–267): derive the output path; HLS URLs go
through the remux tool; other URLs are streamed to disk chunk by chunk.  Any
exception is caught and mapped to `None`; nothing deletes a partially
written file. -/
def download_video (env : DlEnv) (fs : FileSys) (url output_dir timestamp :
    String) : Option String × FileSys :=
  let output_path := output_dir ++ "/" ++ downloadFilename url timestamp
  if isHlsUrl url then
    let r := download_from_playlist env fs url output_path
    (if r.1 then some output_path else none, r.2)
  else
    match env.http url with
    | .fail => (none, fs)
    | .stream chunks completed =>
      let fs' := fs.write output_path (String.join chunks)
      if completed then (some output_path, fs') else (none, fs')

/-- C9 (amended) — Download failure outcomes: every acquisition failure —
network error or non-2xx status at request time, a mid-stream error, or a
non-zero remux exit — yields the single failure outcome `none`; and for
failures occurring before the output file is opened (request-time network
error / non-2xx status) the on-disk state is unchanged at every path.  (A
mid-stream error or a failed remux may leave a partial file; see the
counterexample.) -/
theorem download_video_failure_outcomes (env : DlEnv) (fs : FileSys)
    (url output_dir timestamp : String) :
    (isHlsUrl url = false → env.http url = .fail →
      download_video env fs url output_dir timestamp = (none, fs))
    ∧ (∀ chunks, isHlsUrl url = false → env.http url = .stream chunks false →
      (download_video env fs url output_dir timestamp).1 = none)
    ∧ (∀ w, isHlsUrl url = true → env.ffmpeg url
        (output_dir ++ "/" ++ downloadFilename url timestamp) = (false, w) →
      (download_video env fs url output_dir timestamp).1 = none) := by
  refine ⟨?_, ?_, ?_⟩
  · intro hhls hhttp
    simp [download_video, hhls, hhttp]
  · intro chunks hhls hhttp
    simp [download_video, hhls, hhttp]
  · intro w hhls hff
    simp [download_video, hhls, download_from_playlist, hff]

/-- The environment of the counterexample: the HTTP stream yields one chunk
and then raises. -/
def dlEnvMidFail : DlEnv :=
  { http := fun _ => .stream ["ab"] false
    ffmpeg := fun _ _ => (false, none) }

/-- The empty disk. -/
def emptyFs : FileSys := fun _ => none

/-- Counterexample to C9 as stated: a network error in the middle of the
chunk stream is reported as a single failure, but the chunks already written
remain on disk at the output path — the on-disk state at the output path is
*not* unchanged on this error. -/
theorem download_video_partial_file_left :
    (download_video dlEnvMidFail emptyFs "https://x/video.mp4" "data/videos"
        "1744099622").1 = none
    ∧ (download_video dlEnvMidFail emptyFs "https://x/video.mp4" "data/videos"
        "1744099622").2 "data/videos/1744099622_video.mp4" = some "ab"
    ∧ emptyFs "data/videos/1744099622_video.mp4" = none := by
  refine ⟨rfl, ?_, rfl⟩
  decide

/-- Witness for C9 (amended): a request-time failure on a direct URL returns
failure and leaves the (empty) disk untouched; a failed remux on an HLS URL
returns failure. -/
theorem download_video_failure_outcomes_witness :
    isHlsUrl "https://x/video.mp4" = false
    ∧ download_video { http := fun _ => .fail, ffmpeg := fun _ _ => (true, some "") }
        emptyFs "https://x/video.mp4" "data/videos" "1700000000"
        = (none, emptyFs)
    ∧ (download_video dlEnvMidFail emptyFs "https://cdn/playlist.m3u8"
        "data/videos" "1700000000").1 = none := by
  refine ⟨rfl, ?_, ?_⟩
  · exact (download_video_failure_outcomes _ emptyFs
      "https://x/video.mp4" "data/videos" "1700000000").1 rfl rfl
  · exact (download_video_failure_outcomes dlEnvMidFail emptyFs
      "https://cdn/playlist.m3u8" "data/videos" "1700000000").2.2 none rfl rfl

/-! ## Video processing (`src/process_video.py`)

Times (segment boundaries, frame timestamps) are modelled as rationals; the
source manipulates Python floats, but every claim about them is order- and
midpoint-arithmetic only.  The `duration` fields of segments and words
(display-only 3-decimal roundings of `end - start`, never read downstream)
are omitted from the records. -/

/-- One frame reference attached to a transcript segment
(`{"path": ..., "time": ...}`). -/
structure FrameRef where
  path : String
  time : ℚ
  deriving DecidableEq

/-- One transcript segment. `stop` models the source's `end` field (a Lean
keyword). `frames` is `[]` as created by `transcribe_audio` and populated by
the merge step of `process_video`. -/
structure TSegment where
  text : String
  start : ℚ
  stop : ℚ
  frames : List FrameRef
  deriving DecidableEq

/-- One word entry of the transcript. -/
structure WordData where
  text : String
  start : ℚ
  stop : ℚ
  deriving DecidableEq

/-- The transcript metadata block. `duration` carries the response duration
(the source stores it rounded to 2 decimals for display). -/
structure TranscriptMeta where
  video_id : String
  filename : String
  filepath : String
  language : String
  duration : ℚ
  deriving DecidableEq

/-- The transcript record persisted to and loaded from the transcript JSON
file (serialization to JSON is modelled as the identity on this record). -/
structure TranscriptData where
  metadata : TranscriptMeta
  text : String
  segments : List TSegment
  words : List WordData
  transcript_path : String
  deriving DecidableEq

/-- A segment of the speech-to-text API response. -/
structure ApiSegment where
  text : String
  start : ℚ
  stop : ℚ

/-- A word of the speech-to-text API response. -/
structure ApiWord where
  word : String
  start : ℚ
  stop : ℚ

/-- The speech-to-text API response; `segments`, `words` and `duration` are
`hasattr`-guarded in the source. -/
structure ApiResponse where
  text : String
  segments : Option (List ApiSegment)
  words : Option (List ApiWord)
  duration : Option ℚ

/-- `os.path.basename` for the forward-slash paths this code builds. -/
def pathBasename (p : String) : String :=
  ⟨(splitChar '/' p.data).getLastD []⟩

/-- The root of `os.path.splitext`: drop the extension after the last dot.
(The leading-dot special case of `splitext` cannot arise here: the audio
basenames are `<video base>.mp3` names produced by `extract_audio`.) -/
def splitextRoot (s : String) : String :=
  let parts := splitChar '.' s.data
  if parts.length ≤ 1 then s
  else ⟨List.intercalate ['.'] parts.dropLast⟩

/-- The deterministic transcript path of `transcribe_audio`
(`src/process_video.py` lines 106–119):
`<output_dir>/transcripts/<video_id>_transcript.json` with `video_id` the
extension-free basename of the audio path. -/
def transcriptPathFor (output_dir audio_path : String) : String :=
  output_dir ++ "/transcripts/" ++ splitextRoot (pathBasename audio_path)
    ++ "_transcript.json"

/-- `VideoProcessor.transcribe_audio` (`src/process_video.py` lines 97–187):
no Azure client or missing audio file fail; an existing transcript file at
the deterministic path is loaded and returned without calling the API;
otherwise the API is called, the transcript record is built and persisted at
that path.  Returns the result, the updated transcript store, and whether
the transcription API was invoked. -/
def transcribe_audio (hasClient : Bool) (audioExists : String → Bool)
    (api : String → String → Option ApiResponse) (output_dir : String)
    (tfs : String → Option TranscriptData) (audio_path language : String) :
    Option TranscriptData × (String → Option TranscriptData) × Bool :=
  if !hasClient then (none, tfs, false)
  else if !audioExists audio_path then (none, tfs, false)
  else
    let tpath := transcriptPathFor output_dir audio_path
    match tfs tpath with
    | some cached => (some cached, tfs, false)
    | none =>
      match api audio_path language with
      | none => (none, tfs, true)
      | some resp =>
        let td : TranscriptData :=
          { metadata :=
              { video_id := splitextRoot (pathBasename audio_path)
                filename := pathBasename audio_path
                filepath := audio_path
                language := language
                duration := resp.duration.getD 0 }
            text := resp.text
            segments := (resp.segments.getD []).map
              (fun s => { text := s.text, start := s.start, stop := s.stop
                          frames := [] })
            words := (resp.words.getD []).map
              (fun w => { text := w.word, start := w.start, stop := w.stop })
            transcript_path := tpath }
        (some td, fun p => if p = tpath then some td else tfs p, true)

/-- C6 — Transcript caching round-trip: a first call on a fresh store
invokes the API and persists the transcript at the deterministic path; a
second call on the same audio path finds that file, returns exactly the
persisted content without invoking the API, and leaves the store
unchanged. -/
theorem transcribe_audio_cache_roundtrip (audioExists : String → Bool)
    (api : String → String → Option ApiResponse) (output_dir : String)
    (tfs : String → Option TranscriptData) (audio_path language : String)
    (resp : ApiResponse)
    (hexists : audioExists audio_path = true)
    (hmiss : tfs (transcriptPathFor output_dir audio_path) = none)
    (hapi : api audio_path language = some resp) :
    (transcribe_audio true audioExists api output_dir tfs audio_path
        language).2.2 = true
    ∧ (transcribe_audio true audioExists api output_dir tfs audio_path
        language).1.isSome
    ∧ (transcribe_audio true audioExists api output_dir tfs audio_path
          language).2.1 (transcriptPathFor output_dir audio_path)
        = (transcribe_audio true audioExists api output_dir tfs audio_path
          language).1
    ∧ transcribe_audio true audioExists api output_dir
        (transcribe_audio true audioExists api output_dir tfs audio_path
          language).2.1 audio_path language
      = ((transcribe_audio true audioExists api output_dir tfs audio_path
          language).1,
         (transcribe_audio true audioExists api output_dir tfs audio_path
          language).2.1,
         false) := by
  simp [transcribe_audio, hexists, hmiss, hapi]

/-- A concrete speech-to-text response for the C6 witness. -/
def c6resp : ApiResponse :=
  { text := "hello world"
    segments := some [⟨"hello world", 0, 2⟩]
    words := some [⟨"hello", 0, 1⟩, ⟨"world", 1, 2⟩]
    duration := some 2 }

/-- A transcription API that always returns `c6resp`. -/
def c6api : String → String → Option ApiResponse := fun _ _ => some c6resp

/-- Witness for C6: on a fresh store the first call invokes the API; the
second call returns the identical persisted transcript without invoking it
and leaves the store unchanged. -/
theorem transcribe_audio_cache_roundtrip_witness :
    (transcribe_audio true (fun _ => true) c6api "data/processed_videos"
        (fun _ => none) "data/processed_videos/audio/1744_video.mp3"
        "en").2.2 = true
    ∧ transcribe_audio true (fun _ => true) c6api "data/processed_videos"
        (transcribe_audio true (fun _ => true) c6api "data/processed_videos"
          (fun _ => none) "data/processed_videos/audio/1744_video.mp3"
          "en").2.1 "data/processed_videos/audio/1744_video.mp3" "en"
      = ((transcribe_audio true (fun _ => true) c6api "data/processed_videos"
            (fun _ => none) "data/processed_videos/audio/1744_video.mp3"
            "en").1,
         (transcribe_audio true (fun _ => true) c6api "data/processed_videos"
            (fun _ => none) "data/processed_videos/audio/1744_video.mp3"
            "en").2.1,
         false) := by
  have h := transcribe_audio_cache_roundtrip (fun _ => true) c6api
    "data/processed_videos" (fun _ => none)
    "data/processed_videos/audio/1744_video.mp3" "en" c6resp rfl rfl rfl
  exact ⟨h.1, h.2.2.2⟩

/-- The temporal midpoint `start + (end - start) / 2` of a segment
(`src/process_video.py` line 224). -/
def segMidpoint (s : TSegment) : ℚ :=
  s.start + (s.stop - s.start) / 2

/-- One extracted frame with its segment association
(`segment_frames` entries of `extract_frames`): the segment index, the
timestamp in seconds, and the frame file path; index `-1` marks
fixed-interval frames with no segment. -/
structure FrameInfo where
  segment_index : Int
  time_sec : ℚ
  frame_path : String
  deriving DecidableEq

/-- The per-segment sampling loop of `extract_frames`
(`src/process_video.py` lines 219–249): one frame at the midpoint of each
segment, skipped when the frame read fails.  `readOk` is the `cap.read()`
collaborator, `mkPath` abstracts the frame filename formatting
(`frame_{i:03d}_{middle:.2f}s.jpg`; the format itself is display-only).
The segments handed in always carry `start`/`end` (the shape
`transcribe_audio` creates), so the source's key-presence check is always
true. -/
def extractSegmentFrames (readOk : ℚ → Bool) (mkPath : Nat → ℚ → String) :
    Nat → List TSegment → List FrameInfo
  | _, [] => []
  | i, s :: rest =>
    (if readOk (segMidpoint s) then
      [{ segment_index := (i : Int), time_sec := segMidpoint s
         frame_path := mkPath i (segMidpoint s) }]
     else [])
      ++ extractSegmentFrames readOk mkPath (i + 1) rest

/-- The fixed-interval fallback of `extract_frames`
(`src/process_video.py` lines 250–275): `range(0, int(duration), 10)`,
each frame tagged with `segment_index = -1`. -/
def extractIntervalFrames (readOk : ℚ → Bool) (mkPath : Nat → Nat → String)
    (duration : ℚ) : List FrameInfo :=
  let n := duration.floor.toNat
  (List.range ((n + 9) / 10)).filterMap fun k =>
    let t : Nat := 10 * k
    if readOk ((t : Nat) : ℚ) then
      some { segment_index := -1, time_sec := ((t : Nat) : ℚ)
             frame_path := mkPath k t }
    else none

/-- `VideoProcessor.extract_frames` (`src/process_video.py` lines 189–285):
an unopenable video yields empty results; a transcript with a non-empty
segment list drives segMidpoint sampling; otherwise frames are sampled every 10
seconds.  `frame_paths` is always the path projection of `segment_frames`
(both lists are appended together on every success). -/
def extract_frames (opened : Bool) (readOk : ℚ → Bool)
    (mkSegPath : Nat → ℚ → String) (mkIntPath : Nat → Nat → String)
    (duration : ℚ) (transcript : Option TranscriptData) :
    List String × List FrameInfo :=
  if !opened then ([], [])
  else
    let segment_frames :=
      match transcript with
      | some t =>
        if !t.segments.isEmpty then
          extractSegmentFrames readOk mkSegPath 0 t.segments
        else
          extractIntervalFrames readOk mkIntPath duration
      | none => extractIntervalFrames readOk mkIntPath duration
    (segment_frames.map FrameInfo.frame_path, segment_frames)

/-- One iteration of the frame-integration loop of `process_video`
(`src/process_video.py` lines 347–363): skip index `-1`, bounds-check the
index against the segment list, and append `{path, time}` to that segment's
`frames`.  (Indices other than `-1` produced by `extract_frames` are always
non-negative `enumerate` indices.) -/
def mergeFrameIntoSegments (segs : List TSegment) (fr : FrameInfo) :
    List TSegment :=
  if fr.segment_index = -1 then segs
  else if fr.segment_index < (segs.length : Int) then
    match segs.get? fr.segment_index.toNat with
    | some s =>
      segs.set fr.segment_index.toNat
        { s with frames := s.frames ++ [⟨fr.frame_path, fr.time_sec⟩] }
    | none => segs
  else segs

/-- Step 4 of `process_video` (`src/process_video.py` lines 343–372):
integrate the frame information into the transcript segments (a no-op when
no frames were extracted, matching the source's truthiness guard). -/
def integrate_frames (t : TranscriptData) (frames : List FrameInfo) :
    TranscriptData :=
  if frames.isEmpty then t
  else { t with segments := frames.foldl mergeFrameIntoSegments t.segments }

theorem segMidpoint_bounds {s : TSegment} (h : s.start ≤ s.stop) :
    s.start ≤ segMidpoint s ∧ segMidpoint s ≤ s.stop := by
  unfold segMidpoint
  constructor <;> linarith

theorem extractSegmentFrames_all (readOk : ℚ → Bool)
    (mkPath : Nat → ℚ → String) (hread : ∀ q, readOk q = true) :
    ∀ (i : Nat) (segs : List TSegment),
      extractSegmentFrames readOk mkPath i segs
        = (segs.enumFrom i).map
            (fun p => { segment_index := (p.1 : Int)
                        time_sec := segMidpoint p.2
                        frame_path := mkPath p.1 (segMidpoint p.2) }) := by
  intro i segs
  induction segs generalizing i with
  | nil => rfl
  | cons s rest ih =>
    simp only [extractSegmentFrames, hread, if_true, List.enumFrom,
      List.map_cons, ih, List.singleton_append]

theorem extractSegmentFrames_mem (readOk : ℚ → Bool)
    (mkPath : Nat → ℚ → String) :
    ∀ (i : Nat) (segs : List TSegment) (fr : FrameInfo),
      fr ∈ extractSegmentFrames readOk mkPath i segs →
      ∃ (j : Nat) (h : j < segs.length),
        fr.segment_index = ((i + j : Nat) : Int)
        ∧ fr.time_sec = segMidpoint (segs.get ⟨j, h⟩) := by
  intro i segs
  induction segs generalizing i with
  | nil => intro fr hfr; simp [extractSegmentFrames] at hfr
  | cons s rest ih =>
    intro fr hfr
    unfold extractSegmentFrames at hfr
    rcases List.mem_append.mp hfr with hh | ht
    · by_cases hr : readOk (segMidpoint s) = true
      · simp only [hr, if_true, List.mem_singleton] at hh
        subst hh
        exact ⟨0, by simp, by simp, rfl⟩
      · simp only [Bool.not_eq_true] at hr
        simp [hr] at hh
    · obtain ⟨j, hj, hidx, htime⟩ := ih (i + 1) fr ht
      refine ⟨j + 1, by simpa using Nat.succ_lt_succ hj, ?_, ?_⟩
      · rw [hidx]; omega
      · simpa using htime

/-- All frames attached to segments lie within their segment's time span. -/
def InBoundsAt (l : List TSegment) : Prop :=
  ∀ (i : Nat) (h : i < l.length), ∀ fr ∈ (l.get ⟨i, h⟩).frames,
    (l.get ⟨i, h⟩).start ≤ fr.time ∧ fr.time ≤ (l.get ⟨i, h⟩).stop

/-- `l` has the same length and the same per-segment time spans as `base`
(the merge only ever touches `frames`). -/
def SameSkeleton (base l : List TSegment) : Prop :=
  l.length = base.length ∧
  ∀ (i : Nat) (h : i < l.length) (h' : i < base.length),
    (l.get ⟨i, h⟩).start = (base.get ⟨i, h'⟩).start
    ∧ (l.get ⟨i, h⟩).stop = (base.get ⟨i, h'⟩).stop

/-- A frame is either a fallback frame or is associated with a segment of
`base` whose time span contains its timestamp. -/
def GoodFrame (base : List TSegment) (fr : FrameInfo) : Prop :=
  fr.segment_index = -1 ∨
  ∃ (j : Nat) (h : j < base.length), fr.segment_index = (j : Int)
    ∧ (base.get ⟨j, h⟩).start ≤ fr.time_sec
    ∧ fr.time_sec ≤ (base.get ⟨j, h⟩).stop

theorem merge_step (base segs : List TSegment) (fr : FrameInfo)
    (hskel : SameSkeleton base segs) (hib : InBoundsAt segs)
    (hgood : GoodFrame base fr) :
    SameSkeleton base (mergeFrameIntoSegments segs fr)
    ∧ InBoundsAt (mergeFrameIntoSegments segs fr) := by
  rcases hgood with hneg | ⟨j, hj, hidx, hb1, hb2⟩
  · unfold mergeFrameIntoSegments
    rw [hneg]
    simp only [if_pos rfl]
    exact ⟨hskel, hib⟩
  · obtain ⟨hlen, hsk⟩ := hskel
    have hjseg : j < segs.length := by omega
    have hne1 : ¬ fr.segment_index = -1 := by rw [hidx]; omega
    have hlt : fr.segment_index < (segs.length : Int) := by
      rw [hidx]; omega
    have htn : fr.segment_index.toNat = j := by rw [hidx]; omega
    have hget : segs.get? j = some (segs.get ⟨j, hjseg⟩) :=
      List.get?_eq_get hjseg
    have hmerge : mergeFrameIntoSegments segs fr
        = segs.set j
            { segs.get ⟨j, hjseg⟩ with
              frames := (segs.get ⟨j, hjseg⟩).frames
                ++ [⟨fr.frame_path, fr.time_sec⟩] } := by
      unfold mergeFrameIntoSegments
      rw [if_neg hne1, if_pos hlt, htn, hget]
    rw [hmerge]
    have hgeteq : ∀ (h : j < (segs.set j
        { segs.get ⟨j, hjseg⟩ with
          frames := (segs.get ⟨j, hjseg⟩).frames
            ++ [⟨fr.frame_path, fr.time_sec⟩] }).length),
        (segs.set j
          { segs.get ⟨j, hjseg⟩ with
            frames := (segs.get ⟨j, hjseg⟩).frames
              ++ [⟨fr.frame_path, fr.time_sec⟩] }).get ⟨j, h⟩
        = { segs.get ⟨j, hjseg⟩ with
            frames := (segs.get ⟨j, hjseg⟩).frames
              ++ [⟨fr.frame_path, fr.time_sec⟩] } := by
      intro h
      rw [List.get_eq_getElem]
      simp [List.getElem_set_self]
    have hgetne : ∀ (i : Nat) (hne : i ≠ j) (h : i < (segs.set j
        { segs.get ⟨j, hjseg⟩ with
          frames := (segs.get ⟨j, hjseg⟩).frames
            ++ [⟨fr.frame_path, fr.time_sec⟩] }).length) (h2 : i < segs.length),
        (segs.set j
          { segs.get ⟨j, hjseg⟩ with
            frames := (segs.get ⟨j, hjseg⟩).frames
              ++ [⟨fr.frame_path, fr.time_sec⟩] }).get ⟨i, h⟩
        = segs.get ⟨i, h2⟩ := by
      intro i hne h h2
      rw [List.get_eq_getElem]
      simp [List.getElem_set_ne (fun hh => hne hh.symm)]
    constructor
    · refine ⟨by simpa using hlen, ?_⟩
      intro i h h'
      by_cases hij : i = j
      · subst hij
        rw [hgeteq h]
        exact hsk i hjseg h'
      · rw [hgetne i hij h (by simpa using h)]
        exact hsk i (by simpa using h) h'
    · intro i h fr' hfr'
      by_cases hij : i = j
      · subst hij
        rw [hgeteq h] at hfr' ⊢
        rcases List.mem_append.mp hfr' with hold | hnew
        · exact hib i hjseg fr' hold
        · simp only [List.mem_singleton] at hnew
          subst hnew
          have hse := hsk i hjseg hj
          exact ⟨by rw [hse.1]; exact hb1, by rw [hse.2]; exact hb2⟩
      · rw [hgetne i hij h (by simpa using h)] at hfr' ⊢
        exact hib i (by simpa using h) fr' hfr'

theorem merge_fold (base : List TSegment) (frames : List FrameInfo)
    (hall : ∀ fr ∈ frames, GoodFrame base fr) :
    ∀ segs, SameSkeleton base segs → InBoundsAt segs →
      SameSkeleton base (frames.foldl mergeFrameIntoSegments segs)
      ∧ InBoundsAt (frames.foldl mergeFrameIntoSegments segs) := by
  induction frames with
  | nil => intro segs hskel hib; exact ⟨hskel, hib⟩
  | cons fr rest ih =>
    intro segs hskel hib
    have hstep := merge_step base segs fr hskel hib
      (hall fr (List.mem_cons_self _ _))
    exact ih (fun f hf => hall f (List.mem_cons_of_mem _ hf)) _
      hstep.1 hstep.2

theorem merge_skips_fallback (segs : List TSegment) :
    ∀ (frames : List FrameInfo), (∀ fr ∈ frames, fr.segment_index = -1) →
      frames.foldl mergeFrameIntoSegments segs = segs := by
  intro frames
  induction frames generalizing segs with
  | nil => intro _; rfl
  | cons fr rest ih =>
    intro hall
    have h1 : mergeFrameIntoSegments segs fr = segs := by
      unfold mergeFrameIntoSegments
      rw [hall fr (List.mem_cons_self _ _)]
      simp
    simp only [List.foldl_cons, h1]
    exact ih segs (fun f hf => hall f (List.mem_cons_of_mem _ hf))

theorem extraction_frames_good (readOk : ℚ → Bool) (mkPath : Nat → ℚ → String)
    (segs : List TSegment) (hord : ∀ s ∈ segs, s.start ≤ s.stop) :
    ∀ fr ∈ extractSegmentFrames readOk mkPath 0 segs, GoodFrame segs fr := by
  intro fr hfr
  obtain ⟨j, hlt, hidx, htime⟩ :=
    extractSegmentFrames_mem readOk mkPath 0 segs fr hfr
  right
  have hs := hord (segs.get ⟨j, hlt⟩) (segs.get_mem j hlt)
  have hb := segMidpoint_bounds hs
  exact ⟨j, hlt, by simpa using hidx,
    by rw [htime]; exact hb.1, by rw [htime]; exact hb.2⟩

/-- C5 — Frame sampling at segment midpoints: with a transcript whose
segment list is non-empty (each segment well-ordered and, as produced by
transcription, with an empty `frames` list) and with every frame read
succeeding, exactly one frame is sampled per segment, at the temporal
midpoint `start + (end - start)/2`, in segment order; after the merge step
every frame attached to a segment lies within that segment's
`[start, end]`; and fixed-interval fallback frames (index `-1`) are never
merged into any segment. -/
theorem frames_at_segment_midpoints (readOk : ℚ → Bool)
    (mkSegPath : Nat → ℚ → String) (mkIntPath : Nat → Nat → String)
    (duration : ℚ) (t : TranscriptData)
    (hread : ∀ q, readOk q = true)
    (hne : t.segments ≠ [])
    (hfr : ∀ s ∈ t.segments, s.frames = [])
    (hord : ∀ s ∈ t.segments, s.start ≤ s.stop) :
    (extract_frames true readOk mkSegPath mkIntPath duration (some t)).2
      = (t.segments.enumFrom 0).map
          (fun p => { segment_index := (p.1 : Int)
                      time_sec := segMidpoint p.2
                      frame_path := mkSegPath p.1 (segMidpoint p.2) })
    ∧ (∀ s ∈ (integrate_frames t
          (extract_frames true readOk mkSegPath mkIntPath duration
            (some t)).2).segments,
        ∀ f ∈ s.frames, s.start ≤ f.time ∧ f.time ≤ s.stop)
    ∧ (∀ (t' : TranscriptData) (frames : List FrameInfo),
        (∀ f ∈ frames, f.segment_index = -1) →
        integrate_frames t' frames = t') := by
  have hext : (extract_frames true readOk mkSegPath mkIntPath duration
      (some t)).2 = extractSegmentFrames readOk mkSegPath 0 t.segments := by
    simp [extract_frames, hne]
  refine ⟨?_, ?_, ?_⟩
  · rw [hext]
    exact extractSegmentFrames_all readOk mkSegPath hread 0 t.segments
  · rw [hext]
    have hib0 : InBoundsAt t.segments := by
      intro i h f hf
      rw [hfr (t.segments.get ⟨i, h⟩) (t.segments.get_mem i h)] at hf
      simp at hf
    have hsk0 : SameSkeleton t.segments t.segments :=
      ⟨rfl, fun i h h' => ⟨rfl, rfl⟩⟩
    unfold integrate_frames
    by_cases hempty :
        (extractSegmentFrames readOk mkSegPath 0 t.segments).isEmpty = true
    · simp only [hempty, if_true]
      intro s hs f hf
      rw [hfr s hs] at hf
      simp at hf
    · simp only [hempty, Bool.false_eq_true, if_false]
      have hfold := merge_fold t.segments
        (extractSegmentFrames readOk mkSegPath 0 t.segments)
        (extraction_frames_good readOk mkSegPath t.segments hord)
        t.segments hsk0 hib0
      intro s hs f hf
      obtain ⟨⟨i, hi⟩, hgi⟩ := List.mem_iff_get.mp hs
      have := hfold.2 i hi f (by rw [hgi]; exact hf)
      rw [hgi] at this
      exact this
  · intro t' frames hall
    unfold integrate_frames
    by_cases hempty : frames.isEmpty = true
    · simp only [hempty, if_true]
    · simp only [hempty, Bool.false_eq_true, if_false]
      rw [merge_skips_fallback t'.segments frames hall]

/-- A concrete two-segment transcript for the C5 witness. -/
def c5t : TranscriptData :=
  { metadata := ⟨"v", "v.mp3", "audio/v.mp3", "en", 5⟩
    text := "a b"
    segments := [⟨"a", 0, 2, []⟩, ⟨"b", 2, 5, []⟩]
    words := []
    transcript_path := "t.json" }

/-- Concrete frame-name formatters for the C5 witness. -/
def c5mkSeg : Nat → ℚ → String := fun i _ => "frame_" ++ toString i ++ ".jpg"

def c5mkInt : Nat → Nat → String :=
  fun i t => "frame_" ++ toString i ++ "_" ++ toString t ++ "s.jpg"

/-- Witness for C5: on a concrete 2-segment transcript (spans `[0,2]` and
`[2,5]`) the sampled frames are exactly one per segment at times `1` and
`7/2`. -/
theorem frames_at_segment_midpoints_witness :
    (extract_frames true (fun _ => true) c5mkSeg c5mkInt 5 (some c5t)).2
      = [{ segment_index := 0, time_sec := 1, frame_path := c5mkSeg 0 1 },
         { segment_index := 1, time_sec := 7/2, frame_path := c5mkSeg 1 (7/2) }] := by
  have h := frames_at_segment_midpoints (fun _ => true) c5mkSeg c5mkInt 5 c5t
    (fun _ => rfl) (by simp [c5t]) (by simp [c5t]) (by norm_num [c5t])
  rw [h.1]
  simp [c5t, segMidpoint, List.enumFrom, c5mkSeg]
  norm_num

/-! ## Prompt composition (`src/compose_ai_prompt.py`) -/

/-- External collaborators of the composer: image file reading + base64
encoding (`encode_image`; `none` = unreadable file), MIME sniffing from the
file name (`get_mime_type`), and frame-directory listing (`frame_*.jpg`
glob; `none` = the directory does not exist / is not a directory). -/
structure ComposeEnv where
  encode : String → Option String
  mime : String → String
  glob : String → Option (List String)

/-- Python truthiness of an optional string argument: absent or empty means
falsy. -/
def optTruthy : Option String → Option String
  | some s => if s = "" then none else some s
  | none => none

/-- The default system message of `AIPromptComposer.__init__`. -/
def defaultSystemMessage : String :=
  "You are a helpful assistant. Analyze the provided content and respond accordingly."

/-- The system text the composer emits first: the supplied message when
truthy, else the default. -/
def systemText (system_message : Option String) : String :=
  match optTruthy system_message with
  | some s => s
  | none => defaultSystemMessage

/-- One encoded inline image content item
(`data:<mime>;base64,<encoded>`). -/
def mkImageItem (env : ComposeEnv) (p : String) : Option ContentItem :=
  (env.encode p).map
    (fun e => .image_url ("data:" ++ env.mime p ++ ";base64," ++ e))

/-- `add_images_to_message` (`src/compose_ai_prompt.py` lines 98–129):
an optional caption text item plus one item per encodable image; the message
is appended only when it has content. -/
def add_images_to_message (env : ComposeEnv) (msgs : List Message)
    (image_paths : List String) (text_content : String) : List Message :=
  let content :=
    (if text_content ≠ "" then [ContentItem.ctext text_content] else [])
      ++ image_paths.filterMap (mkImageItem env)
  if content ≠ [] then msgs ++ [⟨"user", .parts content⟩] else msgs

/-- `add_frame_with_segment` (`src/compose_ai_prompt.py` lines 150–179):
the segment text plus its frames; appended only when at least one frame
encodes (`len(content) > 1`). -/
def add_frame_with_segment (env : ComposeEnv) (msgs : List Message)
    (segment_frames : List FrameRef) (segment_text : String) : List Message :=
  let frame_paths := segment_frames.map FrameRef.path
  if frame_paths ≠ [] then
    let content := ContentItem.ctext ("Segment: " ++ segment_text)
      :: frame_paths.filterMap (mkImageItem env)
    if content.length > 1 then msgs ++ [⟨"user", .parts content⟩] else msgs
  else msgs

/-- The even-distribution selection `for i in range(0, len, step): if
len(selected) < maxN: selected.append(l[i])`. -/
def pickEvery {α : Type} (l : List α) (step maxN : Nat) : List α :=
  (List.range ((l.length + step - 1) / step)).foldl
    (fun acc k =>
      if acc.length < maxN then
        match l.get? (k * step) with
        | some x => acc ++ [x]
        | none => acc
      else acc) []

/-- `add_frames_from_transcript_segments`
(`src/compose_ai_prompt.py` lines 181–224): the segments that carry frames,
at most `max_segments` of them (evenly distributed when more), each emitted
through `add_frame_with_segment` in segment order.  Segments without frames
contribute no message here. -/
def add_frames_from_transcript_segments (env : ComposeEnv)
    (msgs : List Message) (t : TranscriptData) (max_segments : Nat) :
    List Message :=
  let swf := t.segments.filter (fun s => !s.frames.isEmpty)
  if swf.isEmpty then msgs
  else
    let selected :=
      if swf.length > max_segments then
        pickEvery swf (swf.length / max_segments) max_segments
      else swf
    selected.foldl
      (fun m s => add_frame_with_segment env m s.frames s.text) msgs

/-- `add_frames_from_transcript` (`src/compose_ai_prompt.py` lines 226–280):
frames embedded in segments take precedence; otherwise up to `max_frames`
frames from the frame directory (evenly distributed), with a caption. -/
def add_frames_from_transcript (env : ComposeEnv) (msgs : List Message)
    (t : TranscriptData) (frame_dir : String) (max_frames : Nat) :
    List Message :=
  if t.segments.any (fun s => !s.frames.isEmpty) then
    add_frames_from_transcript_segments env msgs t 10
  else
    match env.glob frame_dir with
    | none => msgs
    | some available =>
      if available.isEmpty then msgs
      else
        let selected :=
          if available.length ≤ max_frames then available
          else pickEvery available (available.length / max_frames) max_frames
        add_images_to_message env msgs selected
          ("Key frames from video (" ++ toString selected.length ++ " of "
            ++ toString available.length ++ " total frames):")

/-- The argparse arguments consumed by `process_inputs`. -/
structure ComposeArgs where
  system_message : Option String
  text : Option String
  transcript_path : Option String
  image_paths : Option (List String)
  frame_dir : Option String
  max_frames : Nat

/-- Step 2 of `process_inputs`: the free-text user message, when truthy. -/
def stage_text (args : ComposeArgs) (msgs : List Message) : List Message :=
  match optTruthy args.text with
  | some s => msgs ++ [(⟨"user", .text s⟩ : Message)]
  | none => msgs

/-- Step 3 of `process_inputs`: load the transcript; on success emit one
user message with the full transcript text (`add_transcript`), then the
per-segment text+frame groups when any segment embeds frames, else the
directory-based frames.  Returns the messages and the loaded transcript. -/
def stage_transcript (env : ComposeEnv) (tfs : String → Option TranscriptData)
    (args : ComposeArgs) (msgs : List Message) :
    List Message × Option TranscriptData :=
  match optTruthy args.transcript_path with
  | none => (msgs, none)
  | some tp =>
    match tfs tp with
    | none => (msgs, none)
    | some td =>
      let msgs := msgs
        ++ [(⟨"user", .text ("Transcript:\n" ++ td.text)⟩ : Message)]
      if td.segments.any (fun s => !s.frames.isEmpty) then
        (add_frames_from_transcript_segments env msgs td 10, some td)
      else
        match optTruthy args.frame_dir with
        | some fd =>
          (add_frames_from_transcript env msgs td fd args.max_frames, some td)
        | none => (msgs, some td)

/-- Step 4 of `process_inputs`: the standalone images, when supplied. -/
def stage_images (env : ComposeEnv) (args : ComposeArgs)
    (msgs : List Message) : List Message :=
  match args.image_paths with
  | some ps =>
    if !ps.isEmpty then add_images_to_message env msgs ps "Images for analysis:"
    else msgs
  | none => msgs

/-- Step 5 of `process_inputs`: the standalone frame-directory block; it is
skipped whenever a loaded transcript has at least one segment, because every
segment dictionary carries a `frames` key (the source tests key presence,
not truthiness). -/
def stage_framedir (env : ComposeEnv) (args : ComposeArgs)
    (tdata : Option TranscriptData) (msgs : List Message) : List Message :=
  let nofr : Bool :=
    match tdata with
    | none => true
    | some td => td.segments.isEmpty
  match optTruthy args.frame_dir with
  | some fd =>
    if nofr then
      match env.glob fd with
      | none => msgs
      | some available =>
        if !available.isEmpty then
          let selected := available.take args.max_frames
          add_images_to_message env msgs selected
            ("Video frames for analysis (" ++ toString selected.length
              ++ " of " ++ toString available.length ++ " total frames):")
        else msgs
    else msgs
  | none => msgs

/-- `process_inputs` (`src/compose_ai_prompt.py` lines 287–341): system
message first (supplied or default), then the staged additions in source
order.  `tfs` is the transcript store (`json.load`; `none` = unreadable). -/
def process_inputs (env : ComposeEnv) (tfs : String → Option TranscriptData)
    (args : ComposeArgs) : List Message :=
  let msgs : List Message :=
    [⟨"system", .text (systemText args.system_message)⟩]
  let msgs := stage_text args msgs
  let state := stage_transcript env tfs args msgs
  let msgs := stage_images env args state.1
  stage_framedir env args state.2 msgs

theorem add_images_appends (env : ComposeEnv) (ps : List String) (c : String)
    (msgs : List Message) :
    ∃ t, add_images_to_message env msgs ps c = msgs ++ t := by
  simp only [add_images_to_message]
  repeat' split
  all_goals first
    | exact ⟨_, rfl⟩
    | exact ⟨[], (List.append_nil msgs).symm⟩

theorem add_frame_with_segment_appends (env : ComposeEnv)
    (frames : List FrameRef) (txt : String) (msgs : List Message) :
    ∃ t, add_frame_with_segment env msgs frames txt = msgs ++ t := by
  simp only [add_frame_with_segment]
  repeat' split
  all_goals first
    | exact ⟨_, rfl⟩
    | exact ⟨[], (List.append_nil msgs).symm⟩

theorem foldl_segments_appends (env : ComposeEnv) (l : List TSegment) :
    ∀ msgs, ∃ t,
      l.foldl (fun m s => add_frame_with_segment env m s.frames s.text) msgs
        = msgs ++ t := by
  induction l with
  | nil => exact fun msgs => ⟨[], (List.append_nil msgs).symm⟩
  | cons s rest ih =>
    intro msgs
    obtain ⟨t2, h2⟩ := ih (add_frame_with_segment env msgs s.frames s.text)
    obtain ⟨t1, h1⟩ := add_frame_with_segment_appends env s.frames s.text msgs
    refine ⟨t1 ++ t2, ?_⟩
    rw [List.foldl_cons, h2, h1, List.append_assoc]

theorem afts_appends (env : ComposeEnv) (t : TranscriptData)
    (maxSeg : Nat) (msgs : List Message) :
    ∃ r, add_frames_from_transcript_segments env msgs t maxSeg = msgs ++ r := by
  simp only [add_frames_from_transcript_segments]
  split
  · exact ⟨[], (List.append_nil msgs).symm⟩
  · exact foldl_segments_appends env _ msgs

theorem aft_appends (env : ComposeEnv) (t : TranscriptData)
    (fd : String) (maxFr : Nat) (msgs : List Message) :
    ∃ r, add_frames_from_transcript env msgs t fd maxFr = msgs ++ r := by
  simp only [add_frames_from_transcript]
  repeat' split
  all_goals first
    | exact afts_appends env t 10 msgs
    | exact add_images_appends env _ _ msgs
    | exact ⟨[], (List.append_nil msgs).symm⟩

theorem stage_text_appends (args : ComposeArgs) (msgs : List Message) :
    ∃ r, stage_text args msgs = msgs ++ r := by
  simp only [stage_text]
  split
  · exact ⟨_, rfl⟩
  · exact ⟨[], (List.append_nil msgs).symm⟩

theorem stage_transcript_appends (env : ComposeEnv)
    (tfs : String → Option TranscriptData) (args : ComposeArgs)
    (msgs : List Message) :
    ∃ r, (stage_transcript env tfs args msgs).1 = msgs ++ r := by
  rcases hopt : optTruthy args.transcript_path with _ | tp
  · simp only [stage_transcript, hopt]
    exact ⟨[], (List.append_nil msgs).symm⟩
  · rcases htd : tfs tp with _ | td
    · simp only [stage_transcript, hopt, htd]
      exact ⟨[], (List.append_nil msgs).symm⟩
    · simp only [stage_transcript, hopt, htd]
      by_cases hemb : td.segments.any (fun s => !s.frames.isEmpty) = true
      · simp only [hemb, if_true]
        obtain ⟨r, hr⟩ := afts_appends env td 10
          (msgs ++ [(⟨"user", .text ("Transcript:\n" ++ td.text)⟩ : Message)])
        exact ⟨(⟨"user", .text ("Transcript:\n" ++ td.text)⟩ : Message) :: r,
          by rw [hr, List.append_assoc, List.singleton_append]⟩
      · simp only [Bool.not_eq_true] at hemb
        simp only [hemb, Bool.false_eq_true, if_false]
        rcases hfd : optTruthy args.frame_dir with _ | fd
        · simp only [hfd]
          exact ⟨_, rfl⟩
        · simp only [hfd]
          obtain ⟨r, hr⟩ := aft_appends env td fd args.max_frames
            (msgs ++ [(⟨"user", .text ("Transcript:\n" ++ td.text)⟩ : Message)])
          exact ⟨(⟨"user", .text ("Transcript:\n" ++ td.text)⟩ : Message) :: r,
            by rw [hr, List.append_assoc, List.singleton_append]⟩

theorem stage_images_appends (env : ComposeEnv) (args : ComposeArgs)
    (msgs : List Message) :
    ∃ r, stage_images env args msgs = msgs ++ r := by
  simp only [stage_images]
  repeat' split
  all_goals first
    | exact add_images_appends env _ _ msgs
    | exact ⟨[], (List.append_nil msgs).symm⟩

theorem stage_framedir_appends (env : ComposeEnv) (args : ComposeArgs)
    (tdata : Option TranscriptData) (msgs : List Message) :
    ∃ r, stage_framedir env args tdata msgs = msgs ++ r := by
  simp only [stage_framedir]
  repeat' split
  all_goals first
    | exact add_images_appends env _ _ msgs
    | exact ⟨[], (List.append_nil msgs).symm⟩

/-- C7 (amended) — Prompt message ordering: with system text `S`, free text
`F`, and a 2-segment transcript where only segment 2 carries one frame, the
composed messages are exactly `[system(S), user(F),
user("Transcript:\n" + full text), user([text("Segment: " + segment2.text),
image(frame)])]` — the third message carries the *full transcript text* and a
segment without frames contributes no message of its own; and in general the
messages are appended in the order system, free text, full transcript text,
per-segment text+frame groups in segment order, standalone images, with a
system message (the supplied text or the generic fallback) always first. -/
theorem compose_message_ordering (env : ComposeEnv)
    (tfs : String → Option TranscriptData) (S F tp : String)
    (t : TranscriptData) (seg1 seg2 : TSegment) (f : FrameRef) (e : String)
    (mf : Nat)
    (hS : ¬ S = "") (hF : ¬ F = "") (htp : ¬ tp = "")
    (htfs : tfs tp = some t)
    (hsegs : t.segments = [seg1, seg2])
    (h1 : seg1.frames = []) (h2 : seg2.frames = [f])
    (henc : env.encode f.path = some e) :
    process_inputs env tfs ⟨some S, some F, some tp, none, none, mf⟩
      = [⟨"system", .text S⟩, ⟨"user", .text F⟩,
         ⟨"user", .text ("Transcript:\n" ++ t.text)⟩,
         ⟨"user", .parts [.ctext ("Segment: " ++ seg2.text),
           .image_url ("data:" ++ env.mime f.path ++ ";base64," ++ e)]⟩]
    ∧ ∀ (env' : ComposeEnv) (tfs' : String → Option TranscriptData)
        (args : ComposeArgs), ∃ rest,
        process_inputs env' tfs' args
          = ⟨"system", .text (systemText args.system_message)⟩ :: rest := by
  constructor
  · simp [process_inputs, stage_text, stage_transcript, stage_images,
      stage_framedir, systemText, optTruthy, hS, hF, htp, htfs, hsegs, h1, h2,
      henc, add_frames_from_transcript_segments, add_frame_with_segment,
      mkImageItem]
  · intro env' tfs' args
    obtain ⟨r1, hr1⟩ := stage_text_appends args
      [⟨"system", .text (systemText args.system_message)⟩]
    obtain ⟨r2, hr2⟩ := stage_transcript_appends env' tfs' args
      (stage_text args [⟨"system", .text (systemText args.system_message)⟩])
    obtain ⟨r3, hr3⟩ := stage_images_appends env' args
      (stage_transcript env' tfs' args
        (stage_text args
          [⟨"system", .text (systemText args.system_message)⟩])).1
    obtain ⟨r4, hr4⟩ := stage_framedir_appends env' args
      (stage_transcript env' tfs' args
        (stage_text args
          [⟨"system", .text (systemText args.system_message)⟩])).2
      (stage_images env' args
        (stage_transcript env' tfs' args
          (stage_text args
            [⟨"system", .text (systemText args.system_message)⟩])).1)
    refine ⟨r1 ++ r2 ++ r3 ++ r4, ?_⟩
    simp only [process_inputs]
    rw [hr4, hr3, hr2, hr1]
    simp [List.append_assoc]

/-- A concrete 2-segment transcript for C7: segment 1 has no frames,
segment 2 has one frame. -/
def c7t : TranscriptData :=
  { metadata := ⟨"v", "v.mp3", "audio/v.mp3", "en", 4⟩
    text := "hello one hello two"
    segments := [⟨"hello one", 0, 2, []⟩, ⟨"hello two", 2, 4, [⟨"f1.jpg", 3⟩]⟩]
    words := []
    transcript_path := "t.json" }

/-- A concrete composer environment for C7. -/
def c7env : ComposeEnv :=
  { encode := fun _ => some "QUJD"
    mime := fun _ => "image/jpeg"
    glob := fun _ => none }

/-- A transcript store holding `c7t` at `t.json`. -/
def c7tfs : String → Option TranscriptData :=
  fun p => if p = "t.json" then some c7t else none

/-- The C7 scenario arguments: system text, free text, transcript path. -/
def c7args : ComposeArgs :=
  { system_message := some "SYS", text := some "FREE"
    transcript_path := some "t.json", image_paths := none
    frame_dir := none, max_frames := 5 }

/-- Counterexample to C7 as stated: in the claim's scenario the third
message (index 2) is the user message carrying the full transcript text, not
a user message with segment 1's text — a segment without frames contributes
no message of its own. -/
theorem compose_third_message_not_segment_text :
    (process_inputs c7env c7tfs c7args).get? 2
        = some ⟨"user", .text "Transcript:\nhello one hello two"⟩
    ∧ ¬ (process_inputs c7env c7tfs c7args).get? 2
        = some ⟨"user", .text "hello one"⟩ := by
  exact ⟨by decide, by decide⟩

/-- Witness for C7 (amended): the scenario instantiated with the concrete
transcript, environment and arguments. -/
theorem compose_message_ordering_witness :
    process_inputs c7env c7tfs
        ⟨some "SYS2", some "FREE2", some "t.json", none, none, 5⟩
      = [⟨"system", .text "SYS2"⟩, ⟨"user", .text "FREE2"⟩,
         ⟨"user", .text ("Transcript:\n" ++ c7t.text)⟩,
         ⟨"user", .parts [.ctext ("Segment: " ++ "hello two"),
           .image_url ("data:" ++ c7env.mime "f1.jpg" ++ ";base64," ++ "QUJD")]⟩] := by
  exact (compose_message_ordering c7env c7tfs "SYS2" "FREE2" "t.json" c7t
    ⟨"hello one", 0, 2, []⟩ ⟨"hello two", 2, 4, [⟨"f1.jpg", 3⟩]⟩
    ⟨"f1.jpg", 3⟩ "QUJD" 5
    (by decide) (by decide) (by decide) rfl rfl rfl rfl rfl).1
